import Mathlib

/-!
Verification development for the GS25 convenience-store inventory tracker
(`gs25_inventory.py`, a Streamlit dashboard).

The session state (`st.session_state.inventory`, `st.session_state.transactions`)
is modelled as a pure Lean state record; pandas rows become list elements.
Numeric cells (Python ints and floats) are modelled as exact rationals `ℚ`;
clock values (`datetime.now()`) are passed in as an opaque `Nat` tick, and the
derived weekday/month columns of a transaction row are omitted (they are pure
functions of the clock and play no role in any property below).
-/

/-- Python `int(x)` applied to a number: truncation toward zero, i.e. the
floor for a nonnegative argument and the ceiling for a negative one. -/
def pyInt (q : ℚ) : ℤ :=
  if 0 ≤ q then ⌊q⌋ else ⌈q⌉

/-- One row of `st.session_state.inventory`.
Columns: 상품코드 (code), 상품명 (name), 중분류 (category), 매가 (price),
재고수량 (stock), 추천재고수량 (recommended), 등록일시 (regTime, opaque tick). -/
structure Product where
  code : String
  name : String
  category : String
  price : ℚ
  stock : ℚ
  recommended : ℚ
  regTime : Nat
deriving DecidableEq

/-- One row of `st.session_state.transactions`.
Columns: 거래유형 (transType), 상품코드 (code), 상품명 (name), 수량 (qty),
변경전 (before), 변경후 (after).  The 일시/요일/월 columns are derived from the
wall clock and omitted. -/
structure Transaction where
  transType : String
  code : String
  name : String
  qty : ℚ
  before : ℚ
  after : ℚ
deriving DecidableEq

/-- The mutable session state of the app: the product table and the
append-only transaction log. -/
structure SysState where
  inventory : List Product
  transactions : List Transaction
deriving DecidableEq

/-- Python function `add_transaction` (source lines 203-225): appends one row to the
transaction log; the stored 수량 column is `abs(qty)` of the argument. -/
def add_transaction (s : SysState) (ttype code name : String)
    (qty before after : ℚ) : SysState :=
  { s with transactions := s.transactions ++
      [{ transType := ttype, code := code, name := name,
         qty := |qty|, before := before, after := after }] }

/-- The pandas idiom of taking the first index whose 상품코드 matches and
writing back through loc: update the first row whose code matches. -/
def updateFirst (inv : List Product) (code : String)
    (f : Product → Product) : List Product :=
  match inv with
  | [] => []
  | p :: rest =>
      if p.code = code then f p :: rest else p :: updateFirst rest code f

/-- Python function `update_stock(code, change, trans_type)` (source lines 227-246): if the
code is present, clamp the new stock to `max(0, before + change)`, write it
back together with a fresh timestamp, append one transaction row, and report
success; otherwise return the state unchanged with failure. -/
def update_stock (s : SysState) (code : String) (change : ℚ)
    (ttype : String) (now : Nat) : SysState × Bool :=
  match s.inventory.find? (fun p => p.code == code) with
  | none => (s, false)
  | some p =>
      let before := p.stock
      let after := max 0 (before + change)
      let inv := updateFirst s.inventory code
        (fun q => { q with stock := after, regTime := now })
      (add_transaction { s with inventory := inv } ttype code p.name
        change before after, true)

/-- The 재고조정 branch for 입고/판매/폐기 (source lines 786-794, 809): the UI
turns the positive quantity into a signed delta (`+qty` for 입고, `-qty` for
판매/폐기) and calls `update_stock`. -/
def adjust_stock (s : SysState) (code : String) (adjType : String)
    (qty : ℚ) (now : Nat) : SysState × Bool :=
  let change := if adjType = "입고" then qty else -qty
  update_stock s code change adjType now

/-- The 직접조정 branch (source lines 789-791, 800-807): reads the current
stock, overwrites it with `newStock`, and appends one transaction row whose
arguments are `change = newStock - current`, before = current, after =
newStock.  Modelled only for a code present in the table (the UI only offers
existing products); an absent code leaves the state unchanged. -/
def set_quantity_direct (s : SysState) (code : String) (newStock : ℚ)
    (now : Nat) : SysState × Bool :=
  match s.inventory.find? (fun p => p.code == code) with
  | none => (s, false)
  | some p =>
      let current := p.stock
      let change := newStock - current
      let inv := updateFirst s.inventory code
        (fun q => { q with stock := newStock, regTime := now })
      (add_transaction { s with inventory := inv } "직접조정" code p.name
        change current newStock, true)

/-- The 신규등록 form submit (source lines 725-748): reject a blank code or
name, reject a duplicate code, otherwise append the new row (recommended
defaulting to `max(int(stock * 1.5), 5)` when the supplied value is not
positive) and append one 신규등록 transaction with before 0 and after the
initial stock.  The stored product name is stripped (`new_name.strip()`)
while the transaction row receives the raw name. -/
def register_product (s : SysState) (code name category : String)
    (price stock recommend : ℚ) (now : Nat) : SysState × Bool :=
  if code = "" ∨ name = "" then (s, false)
  else if s.inventory.any (fun p => p.code == code) then (s, false)
  else
    let rec' := if recommend > 0 then recommend
                else max ((pyInt (stock * 1.5) : ℤ) : ℚ) 5
    let p : Product :=
      { code := code, name := name.trim, category := category, price := price,
        stock := stock, recommended := rec', regTime := now }
    (add_transaction { s with inventory := s.inventory ++ [p] }
      "신규등록" code name stock 0 stock, true)

/-- The 일괄 적용 batch operation of the 추천재고설정 tab (source lines
838-851): for every row of the selected category, overwrite 추천재고수량 with
`max(int(stock * multiplier), 5)`; nothing else is touched — in particular no
transaction row is appended and 등록일시 is left alone. -/
def bulk_set_recommended (s : SysState) (cat : String) (multiplier : ℚ) :
    SysState :=
  { s with inventory := s.inventory.map (fun p =>
      if p.category = cat then
        { p with recommended := max ((pyInt (p.stock * multiplier) : ℤ) : ℚ) 5 }
      else p) }

/-- Stock of the first product with the given code, if any. -/
def get_stock (s : SysState) (code : String) : Option ℚ :=
  (s.inventory.find? (fun p => p.code == code)).map (·.stock)

/-- One data row of an uploaded spreadsheet, as it stands after the cell
coercions `safe_str_convert` (strip / stringify, giving `""` for blanks) and
`safe_num_convert` (giving the numeric default `0` for blanks and junk).
A column that is absent from the file is signalled by the flags in
`RawTable`, and the corresponding cell value is then ignored. -/
structure RawRow where
  code : String
  name : String
  price : ℚ
  qty : ℚ
  legacyQty : ℚ
  recommended : ℚ
deriving DecidableEq

/-- An uploaded spreadsheet after `clean_excel_data`: which of the optional
columns (매가, 재고수량, 이월수량, 추천재고수량) and required columns
(상품코드, 상품명) are present, plus the data rows. -/
structure RawTable where
  hasCode : Bool
  hasName : Bool
  hasPrice : Bool
  hasQty : Bool
  hasLegacyQty : Bool
  hasRecommended : Bool
  rows : List RawRow
deriving DecidableEq

/-- The column-assembly step of `process_inventory_excel` (source lines
143-160): pick 재고수량, falling back to 이월수량 then 0; default 매가 and
추천재고수량 to 0 when absent; stamp every row with the batch category and
the upload time; then replace a zero 추천재고수량 by
`max(int(qty * 1.5), 5)`. -/
def normalize_rows (t : RawTable) (category : String) (now : Nat) :
    List Product :=
  t.rows.map (fun r =>
    let qty := if t.hasQty then r.qty
               else if t.hasLegacyQty then r.legacyQty else 0
    let price := if t.hasPrice then r.price else 0
    let rec0 := if t.hasRecommended then r.recommended else 0
    let rec' := if rec0 = 0 then max ((pyInt (qty * 1.5) : ℤ) : ℚ) 5 else rec0
    { code := r.code, name := r.name, category := category, price := price,
      stock := qty, recommended := rec', regTime := now })

/-- The row-validity predicate of `process_inventory_excel` (source lines
163-166): both the coerced code and name are nonempty. -/
def valid_row (p : Product) : Bool :=
  decide (0 < p.code.length) && decide (0 < p.name.length)

/-- Python function `process_inventory_excel(file, category_code)` (source lines 123-175):
reject an empty sheet; reject a sheet missing 상품코드 or 상품명; normalize
the rows; drop rows with a blank code or name; reject an empty remainder;
otherwise return the normalized rows. -/
def process_inventory_excel (t : RawTable) (category : String) (now : Nat) :
    Except String (List Product) :=
  if t.rows = [] then .error "파일에 데이터가 없습니다."
  else if ¬(t.hasCode = true ∧ t.hasName = true) then
    .error "필수 컬럼이 없습니다"
  else
    let result := (normalize_rows t category now).filter valid_row
    if result = [] then .error "유효한 데이터가 없습니다."
    else .ok result

/-- The 업로드 실행 handler of `show_file_upload` (source lines 662-697):
on a processing error report it and leave the state alone; otherwise in
replace mode install the processed rows as the whole table, and in merge mode
append only the processed rows whose code is not already present (installing
the rows directly when the table was empty).  The transaction log is never
touched. -/
def upload_file (s : SysState) (t : RawTable) (category : String)
    (replaceMode : Bool) (now : Nat) : SysState × Option String :=
  match process_inventory_excel t category now with
  | .error e => (s, some e)
  | .ok processed =>
      if replaceMode then ({ s with inventory := processed }, none)
      else if s.inventory = [] then ({ s with inventory := processed }, none)
      else
        let existingCodes := s.inventory.map (·.code)
        let newData := processed.filter
          (fun p => !(existingCodes.contains p.code))
        if newData = [] then (s, none)
        else ({ s with inventory := s.inventory ++ newData }, none)

/-- A row of the reorder list: a low-stock product together with its 부족수량
(shortage) column. -/
structure LowStockItem where
  product : Product
  shortage : ℚ
deriving DecidableEq

/-- The filter-and-annotate stage of `get_low_stock_items` (source lines
259-261): the rows with 재고수량 < 추천재고수량, each carrying
부족수량 = 추천재고수량 - 재고수량, in table order. -/
def low_stock_base (s : SysState) : List LowStockItem :=
  ((s.inventory.filter (fun p => decide (p.stock < p.recommended))).map
    (fun p => { product := p, shortage := p.recommended - p.stock }))

/-- Stable ascending insertion by shortage: the new element goes in front of
the first element whose shortage is not smaller.  This is the tie behaviour of
numpy's ascending argsort as pandas invokes it on a small column. -/
def insertAscShortage (x : LowStockItem) : List LowStockItem →
    List LowStockItem
  | [] => [x]
  | y :: ys =>
      if x.shortage ≤ y.shortage then x :: y :: ys
      else y :: insertAscShortage x ys

/-- Stable ascending insertion sort by shortage. -/
def sortAscShortage : List LowStockItem → List LowStockItem
  | [] => []
  | x :: xs => insertAscShortage x (sortAscShortage xs)

/-- Python function `get_low_stock_items()` (source lines 252-267): filter and annotate, then
`sort_values('부족수량', ascending=False)`.  pandas implements the descending
sort by computing an ascending argsort and reversing it (`nargsort` in
pandas/core/sorting.py), so the embedding is the reverse of a stable ascending
sort: equal shortages end up in reversed table order.  (The derived 중분류명
label column is a rendering concern and omitted.) -/
def get_low_stock_items (s : SysState) : List LowStockItem :=
  (sortAscShortage (low_stock_base s)).reverse

/-- Modelled from the spec's words for claim C4 / C8's formula with real
arithmetic: `max(on-hand * 1.5, 5)` without integer truncation. -/
def recommended_spec (q : ℚ) : ℚ :=
  max (q * 1.5) 5

/-- The recommended-quantity default as the code computes it:
`max(int(q * 1.5), 5)` with Python truncation. -/
def recommended_amended (q : ℚ) : ℚ :=
  max ((pyInt (q * 1.5) : ℤ) : ℚ) 5

/-- Modelled from the spec's words for claim C8: `max(on-hand * multiplier,
5)` with real arithmetic. -/
def bulk_recommended_spec (stock m : ℚ) : ℚ :=
  max (stock * m) 5

/-- The bulk recommended formula as the code computes it:
`max(int(stock * multiplier), 5)` with Python truncation. -/
def bulk_recommended_amended (stock m : ℚ) : ℚ :=
  max ((pyInt (stock * m) : ℤ) : ℚ) 5

/-- Modelled from the spec's words for claim C3: stable insertion for a
DESCENDING sort in which ties keep the original table order — the element
being inserted (which is earlier in table order than everything already in
the sorted tail) goes in front of the first element whose shortage does not
exceed its own. -/
def insertDescStable (x : LowStockItem) : List LowStockItem →
    List LowStockItem
  | [] => [x]
  | y :: ys =>
      if y.shortage ≤ x.shortage then x :: y :: ys
      else y :: insertDescStable x ys

/-- Modelled from the spec's words for claim C3: stable descending insertion
sort by shortage (ties in original table order). -/
def sortDescStable : List LowStockItem → List LowStockItem
  | [] => []
  | x :: xs => insertDescStable x (sortDescStable xs)

/-- Modelled from the spec's words for claim C3: `computeReorderList` as the
spec states it — the low-stock rows sorted by shortage descending with ties
in original table order (a stable sort). -/
def computeReorderList_spec (s : SysState) : List LowStockItem :=
  sortDescStable (low_stock_base s)

/-- One 재고조정 interaction: which product, which 조정 유형 button, the
positive quantity entered, and the clock tick. -/
structure AdjustOp where
  code : String
  adjType : String
  qty : ℚ
  now : Nat

/-- Run a sequence of 재고조정 interactions through `adjust_stock`. -/
def apply_adjustments (s : SysState) (ops : List AdjustOp) : SysState :=
  ops.foldl (fun st o => (adjust_stock st o.code o.adjType o.qty o.now).1) s

/-- A table-growing operation for claim C9: a manual 신규등록 or a spreadsheet
upload in either mode. -/
inductive LedgerOp where
  | register (code name category : String) (price stock recommend : ℚ)
      (now : Nat)
  | upload (t : RawTable) (category : String) (replaceMode : Bool) (now : Nat)

/-- Run one `LedgerOp`. -/
def run_op (s : SysState) : LedgerOp → SysState
  | .register c n cat pr stq re now => (register_product s c n cat pr stq re now).1
  | .upload t cat mode now => (upload_file s t cat mode now).1

/-- Run a sequence of `LedgerOp`s. -/
def run_ops (s : SysState) (ops : List LedgerOp) : SysState :=
  ops.foldl run_op s

/-- Side condition for claim C9 (amended): an uploaded file's normalized,
filtered rows carry pairwise-distinct codes.  Manual registration needs no
side condition. -/
def op_import_nodup : LedgerOp → Prop
  | .register _ _ _ _ _ _ _ => True
  | .upload t cat _ now =>
      (((normalize_rows t cat now).filter valid_row).map (·.code)).Nodup

theorem find?_updateFirst (l : List Product) (code : String)
    (f : Product → Product) (hf : ∀ q, (f q).code = q.code) (p : Product)
    (h : l.find? (fun q => q.code == code) = some p) :
    (updateFirst l code f).find? (fun q => q.code == code) = some (f p) := by
  induction l with
  | nil => simp at h
  | cons a l ih =>
    by_cases hc : a.code = code
    · rw [List.find?_cons_of_pos _ (by simp [hc])] at h
      injection h with h
      subst h
      simp [updateFirst, hc, hf]
    · rw [List.find?_cons_of_neg _ (by simp [hc])] at h
      simp only [updateFirst, if_neg hc]
      rw [List.find?_cons_of_neg _ (by simp [hc])]
      exact ih h

theorem mem_updateFirst {l : List Product} {code : String}
    {f : Product → Product} {q : Product} (h : q ∈ updateFirst l code f) :
    q ∈ l ∨ ∃ p ∈ l, q = f p := by
  induction l with
  | nil => simp [updateFirst] at h
  | cons a l ih =>
    by_cases hc : a.code = code
    · simp [updateFirst, hc] at h
      rcases h with h | h
      · exact .inr ⟨a, by simp, h⟩
      · exact .inl (by simp [h])
    · simp [updateFirst, hc] at h
      rcases h with h | h
      · exact .inl (by simp [h])
      · rcases ih h with h1 | ⟨p, hp, hq⟩
        · exact .inl (by simp [h1])
        · exact .inr ⟨p, by simp [hp], hq⟩

theorem process_ok_eq {t : RawTable} {category : String} {now : Nat}
    {processed : List Product}
    (h : process_inventory_excel t category now = .ok processed) :
    processed = (normalize_rows t category now).filter valid_row := by
  simp only [process_inventory_excel] at h
  split_ifs at h
  simp_all

theorem perm_insertAscShortage (x : LowStockItem) (l : List LowStockItem) :
    (insertAscShortage x l).Perm (x :: l) := by
  induction l with
  | nil => simp [insertAscShortage]
  | cons y ys ih =>
    simp only [insertAscShortage]
    split
    · exact .refl _
    · exact (ih.cons y).trans (List.Perm.swap x y ys)

theorem perm_sortAscShortage (l : List LowStockItem) :
    (sortAscShortage l).Perm l := by
  induction l with
  | nil => simp [sortAscShortage]
  | cons x xs ih =>
    exact (perm_insertAscShortage x (sortAscShortage xs)).trans (ih.cons x)

theorem sorted_insertAscShortage {x : LowStockItem} {l : List LowStockItem}
    (h : List.Sorted (fun a b : LowStockItem => a.shortage ≤ b.shortage) l) :
    List.Sorted (fun a b : LowStockItem => a.shortage ≤ b.shortage)
      (insertAscShortage x l) := by
  induction l with
  | nil => simp [insertAscShortage]
  | cons y ys ih =>
    rw [List.sorted_cons] at h
    simp only [insertAscShortage]
    split
    next hxy =>
      rw [List.sorted_cons]
      refine ⟨?_, List.sorted_cons.mpr h⟩
      intro b hb
      rcases List.mem_cons.mp hb with rfl | hb
      · exact hxy
      · exact le_trans hxy (h.1 b hb)
    next hxy =>
      rw [List.sorted_cons]
      refine ⟨?_, ih h.2⟩
      intro b hb
      have hb' : b ∈ x :: ys := (perm_insertAscShortage x ys).subset hb
      rcases List.mem_cons.mp hb' with rfl | hb'
      · exact le_of_lt (lt_of_not_le hxy)
      · exact h.1 b hb'

theorem sorted_sortAscShortage (l : List LowStockItem) :
    List.Sorted (fun a b : LowStockItem => a.shortage ≤ b.shortage)
      (sortAscShortage l) := by
  induction l with
  | nil => simp [sortAscShortage]
  | cons x xs ih => exact sorted_insertAscShortage ih

theorem filter_insertAscShortage (x : LowStockItem) (l : List LowStockItem)
    (v : ℚ) :
    (insertAscShortage x l).filter (fun it => decide (it.shortage = v))
      = (x :: l).filter (fun it => decide (it.shortage = v)) := by
  induction l with
  | nil => rfl
  | cons y ys ih =>
    simp only [insertAscShortage]
    split
    · rfl
    next hxy =>
      have hlt : y.shortage < x.shortage := lt_of_not_le hxy
      by_cases hx : x.shortage = v
      · have hy : ¬ y.shortage = v := by
          intro hyv
          rw [hx] at hlt
          rw [hyv] at hlt
          exact lt_irrefl v hlt
        simp [List.filter, hx, hy, ih]
      · simp [List.filter, hx, ih]

theorem filter_sortAscShortage (l : List LowStockItem) (v : ℚ) :
    (sortAscShortage l).filter (fun it => decide (it.shortage = v))
      = l.filter (fun it => decide (it.shortage = v)) := by
  induction l with
  | nil => rfl
  | cons x xs ih =>
    rw [sortAscShortage, filter_insertAscShortage]
    simp [List.filter, ih]

theorem stock_nonneg_adjust (s : SysState) (code adjType : String) (qty : ℚ)
    (now : Nat) (h : ∀ q ∈ s.inventory, 0 ≤ q.stock) :
    ∀ q ∈ (adjust_stock s code adjType qty now).1.inventory, 0 ≤ q.stock := by
  cases hf : s.inventory.find? (fun p => p.code == code) with
  | none =>
    simp only [adjust_stock, update_stock, hf]
    exact h
  | some p =>
    intro q hq
    simp only [adjust_stock, update_stock, hf, add_transaction] at hq
    rcases mem_updateFirst hq with h1 | ⟨p', _, rfl⟩
    · exact h q h1
    · exact le_max_left 0 _

theorem stock_nonneg_apply_adjustments (s : SysState) (ops : List AdjustOp)
    (h : ∀ q ∈ s.inventory, 0 ≤ q.stock) :
    ∀ q ∈ (apply_adjustments s ops).inventory, 0 ≤ q.stock := by
  induction ops generalizing s with
  | nil => exact h
  | cons o ops ih =>
    rw [apply_adjustments, List.foldl_cons]
    exact ih _ (stock_nonneg_adjust s o.code o.adjType o.qty o.now h)

theorem find?_map_code (l : List Product) (code : String)
    (f : Product → Product) (hf : ∀ q, (f q).code = q.code) :
    (l.map f).find? (fun q => q.code == code)
      = (l.find? (fun q => q.code == code)).map f := by
  induction l with
  | nil => rfl
  | cons a l ih =>
    by_cases hc : a.code = code
    · rw [List.map_cons, List.find?_cons_of_pos _ (by simp [hf, hc]),
        List.find?_cons_of_pos _ (by simp [hc])]
      rfl
    · rw [List.map_cons, List.find?_cons_of_neg _ (by simp [hf, hc]),
        List.find?_cons_of_neg _ (by simp [hc])]
      exact ih

theorem nodup_register (s : SysState) (code name category : String)
    (price stock re : ℚ) (now : Nat)
    (h : (s.inventory.map (·.code)).Nodup) :
    (((register_product s code name category price stock re now).1.inventory.map
      (·.code)).Nodup) := by
  unfold register_product
  split_ifs with h1 h2 h3
  · exact h
  · exact h
  all_goals
  · simp only [add_transaction, List.map_append, List.map_cons, List.map_nil]
    rw [List.nodup_append]
    refine ⟨h, List.nodup_singleton _, ?_⟩
    intro a ha hb
    simp only [List.mem_singleton] at hb
    subst hb
    rcases List.mem_map.mp ha with ⟨p, hp, hpc⟩
    exact h2 (List.any_eq_true.mpr ⟨p, hp, by simp [hpc]⟩)

theorem nodup_upload (s : SysState) (t : RawTable) (cat : String)
    (mode : Bool) (now : Nat)
    (hs : (s.inventory.map (·.code)).Nodup)
    (ht : (((normalize_rows t cat now).filter valid_row).map (·.code)).Nodup) :
    (((upload_file s t cat mode now).1.inventory.map (·.code)).Nodup) := by
  cases hp : process_inventory_excel t cat now with
  | error e =>
    simp only [upload_file, hp]
    exact hs
  | ok processed =>
    have hpe : processed = (normalize_rows t cat now).filter valid_row :=
      process_ok_eq hp
    simp only [upload_file, hp]
    subst hpe
    split_ifs with h1 h2 h3
    · exact ht
    · exact ht
    · exact hs
    · simp only [List.map_append]
      rw [List.nodup_append]
      refine ⟨hs, ?_, ?_⟩
      · exact ht.sublist (List.Sublist.map _ (List.filter_sublist _))
      · intro a ha hb
        rcases List.mem_map.mp hb with ⟨p, hpmem, hpc⟩
        have hval := (List.mem_filter.mp hpmem).2
        rw [Bool.not_eq_true'] at hval
        have h' : (s.inventory.map (·.code)).elem p.code = false := hval
        rw [List.elem_iff.mpr (hpc ▸ ha)] at h'
        cases h'

/-- C3, counterexample: on a table with two products of equal shortage
(both have stock 5 and recommended 15, so shortage 10), `get_low_stock_items`
returns them in REVERSED table order (P2 before P1), while the claimed stable
descending sort (`computeReorderList_spec`, ties in original table order)
returns P1 before P2 — so the claim's tie-breaking clause is false. -/
theorem claim_C3_counterexample :
    (get_low_stock_items
        ⟨[⟨"P1", "A", "02", 1, 5, 15, 0⟩, ⟨"P2", "B", "02", 1, 5, 15, 0⟩],
         []⟩).map (·.product.code) = ["P2", "P1"]
    ∧ (computeReorderList_spec
        ⟨[⟨"P1", "A", "02", 1, 5, 15, 0⟩, ⟨"P2", "B", "02", 1, 5, 15, 0⟩],
         []⟩).map (·.product.code) = ["P1", "P2"]
    ∧ get_low_stock_items
        ⟨[⟨"P1", "A", "02", 1, 5, 15, 0⟩, ⟨"P2", "B", "02", 1, 5, 15, 0⟩],
         []⟩
      ≠ computeReorderList_spec
        ⟨[⟨"P1", "A", "02", 1, 5, 15, 0⟩, ⟨"P2", "B", "02", 1, 5, 15, 0⟩],
         []⟩ := by
  have h1 : (get_low_stock_items
      ⟨[⟨"P1", "A", "02", 1, 5, 15, 0⟩, ⟨"P2", "B", "02", 1, 5, 15, 0⟩],
       []⟩).map (·.product.code) = ["P2", "P1"] := by
    norm_num [get_low_stock_items, low_stock_base, sortAscShortage,
      insertAscShortage, List.filter]
  have h2 : (computeReorderList_spec
      ⟨[⟨"P1", "A", "02", 1, 5, 15, 0⟩, ⟨"P2", "B", "02", 1, 5, 15, 0⟩],
       []⟩).map (·.product.code) = ["P1", "P2"] := by
    norm_num [computeReorderList_spec, low_stock_base, sortDescStable,
      insertDescStable, List.filter]
  refine ⟨h1, h2, fun h => ?_⟩
  rw [h, h2] at h1
  simp at h1

/-- C3 (amended): `get_low_stock_items` returns exactly the products with
stock strictly below recommended, each annotated with shortage =
recommended - stock, sorted by shortage descending — but ties between equal
shortages come out in REVERSED original table order (pandas computes an
ascending argsort and reverses it), not original order. -/
theorem claim_C3 (s : SysState) :
    (get_low_stock_items s).Perm (low_stock_base s)
    ∧ (∀ it ∈ get_low_stock_items s,
        it.product ∈ s.inventory
        ∧ it.product.stock < it.product.recommended
        ∧ it.shortage = it.product.recommended - it.product.stock)
    ∧ List.Sorted (fun a b : LowStockItem => b.shortage ≤ a.shortage)
        (get_low_stock_items s)
    ∧ ∀ v : ℚ,
        (get_low_stock_items s).filter (fun it => decide (it.shortage = v))
          = ((low_stock_base s).filter
              (fun it => decide (it.shortage = v))).reverse := by
  have hperm : (get_low_stock_items s).Perm (low_stock_base s) :=
    (List.reverse_perm _).trans (perm_sortAscShortage _)
  refine ⟨hperm, ?_, ?_, ?_⟩
  · intro it hit
    have hbase : it ∈ low_stock_base s := hperm.subset hit
    rcases List.mem_map.mp hbase with ⟨p, hp, rfl⟩
    have hf := List.mem_filter.mp hp
    refine ⟨hf.1, by simpa using hf.2, rfl⟩
  · rw [get_low_stock_items, List.Sorted, List.pairwise_reverse]
    exact sorted_sortAscShortage (low_stock_base s)
  · intro v
    rw [get_low_stock_items, List.filter_reverse, filter_sortAscShortage]

/-- C1: for a 재고조정 call on a product code present in the table, the new
on-hand quantity is `max(0, before + signedDelta)` where the delta is `+qty`
for 입고 (inbound) and `-qty` for 판매/폐기 (sale/disposal); consequently, for
every sequence of such calls starting from a table of nonnegative stocks,
every on-hand quantity stays nonnegative. -/
theorem claim_C1 (s : SysState) (code adjType : String) (qty : ℚ) (now : Nat)
    (p : Product)
    (h : s.inventory.find? (fun q => q.code == code) = some p) :
    get_stock (adjust_stock s code adjType qty now).1 code
      = some (max 0 (p.stock + (if adjType = "입고" then qty else -qty)))
    ∧ ∀ ops : List AdjustOp, (∀ q ∈ s.inventory, 0 ≤ q.stock) →
        ∀ q ∈ (apply_adjustments s ops).inventory, 0 ≤ q.stock := by
  constructor
  · have hfu := find?_updateFirst s.inventory code
      (fun q => { q with
        stock := max 0 (p.stock + (if adjType = "입고" then qty else -qty)),
        regTime := now })
      (fun _ => rfl) p h
    simp only [adjust_stock, update_stock, h, add_transaction, get_stock]
    rw [hfu]
    rfl
  · exact fun ops => stock_nonneg_apply_adjustments s ops

/-- Witness for C1 at a one-product table: a 판매 of 2 from stock 5 leaves
`max 0 (5 + -2)` on hand, and stocks stay nonnegative for any adjustments. -/
theorem claim_C1_witness :
    get_stock (adjust_stock ⟨[⟨"P1", "A", "01", 1000, 5, 7, 0⟩], []⟩
        "P1" "판매" 2 3).1 "P1"
      = some (max 0 (5 + (if "판매" = "입고" then (2 : ℚ) else -2)))
    ∧ ∀ ops : List AdjustOp,
        (∀ q ∈ ([⟨"P1", "A", "01", 1000, 5, 7, 0⟩] : List Product), 0 ≤ q.stock) →
        ∀ q ∈ (apply_adjustments ⟨[⟨"P1", "A", "01", 1000, 5, 7, 0⟩], []⟩
            ops).inventory, 0 ≤ q.stock :=
  claim_C1 ⟨[⟨"P1", "A", "01", 1000, 5, 7, 0⟩], []⟩ "P1" "판매" 2 3
    ⟨"P1", "A", "01", 1000, 5, 7, 0⟩ rfl

/-- C2: every successful `update_stock` or 직접조정 call appends exactly one
transaction row whose 변경전/변경후 equal the product's stock immediately
before/after the call; and the other modelled operations on the table — the
일괄 적용 recommended update, a merge-mode upload, and a 신규등록 of a fresh
code — neither change any existing product's stock nor (for the first two)
append any transaction row, while 신규등록 appends exactly its one
registration row. -/
theorem claim_C2 (s : SysState) :
    (∀ (code : String) (change : ℚ) (ttype : String) (now : Nat)
        (p : Product), s.inventory.find? (fun q => q.code == code) = some p →
      (update_stock s code change ttype now).1.transactions
        = s.transactions ++
          [{ transType := ttype, code := code, name := p.name,
             qty := |change|, before := p.stock,
             after := max 0 (p.stock + change) }]
      ∧ get_stock s code = some p.stock
      ∧ get_stock (update_stock s code change ttype now).1 code
          = some (max 0 (p.stock + change)))
    ∧ (∀ (code : String) (newStock : ℚ) (now : Nat) (p : Product),
        s.inventory.find? (fun q => q.code == code) = some p →
      (set_quantity_direct s code newStock now).1.transactions
        = s.transactions ++
          [{ transType := "직접조정", code := code, name := p.name,
             qty := |newStock - p.stock|, before := p.stock,
             after := newStock }]
      ∧ get_stock s code = some p.stock
      ∧ get_stock (set_quantity_direct s code newStock now).1 code
          = some newStock)
    ∧ (∀ (cat : String) (m : ℚ),
        (bulk_set_recommended s cat m).transactions = s.transactions
        ∧ ∀ code : String,
            get_stock (bulk_set_recommended s cat m) code = get_stock s code)
    ∧ (∀ (t : RawTable) (category : String) (now : Nat),
        (upload_file s t category false now).1.transactions = s.transactions
        ∧ ∀ (code : String) (p : Product),
            s.inventory.find? (fun q => q.code == code) = some p →
              get_stock (upload_file s t category false now).1 code
                = some p.stock)
    ∧ (∀ (code name category : String) (price stock re : ℚ) (now : Nat),
        (register_product s code name category price stock re now).2 = true →
          (register_product s code name category price stock re now).1.transactions
            = s.transactions ++
              [{ transType := "신규등록", code := code, name := name,
                 qty := |stock|, before := 0, after := stock }]
          ∧ ∀ (c : String) (p : Product),
              s.inventory.find? (fun q => q.code == c) = some p →
                get_stock (register_product s code name category price stock
                    re now).1 c = some p.stock) := by
  refine ⟨?_, ?_, ?_, ?_, ?_⟩
  · intro code change ttype now p h
    have hfu := find?_updateFirst s.inventory code
      (fun q => { q with stock := max 0 (p.stock + change), regTime := now })
      (fun _ => rfl) p h
    refine ⟨by simp [update_stock, h, add_transaction], by simp [get_stock, h], ?_⟩
    simp only [update_stock, h, add_transaction, get_stock]
    rw [hfu]
    rfl
  · intro code newStock now p h
    have hfu := find?_updateFirst s.inventory code
      (fun q => { q with stock := newStock, regTime := now })
      (fun _ => rfl) p h
    refine ⟨by simp [set_quantity_direct, h, add_transaction],
      by simp [get_stock, h], ?_⟩
    simp only [set_quantity_direct, h, add_transaction, get_stock]
    rw [hfu]
    rfl
  · intro cat m
    refine ⟨rfl, ?_⟩
    intro code
    simp only [bulk_set_recommended, get_stock]
    rw [find?_map_code _ code _ (fun q => by by_cases hq : q.category = cat <;> simp [hq])]
    cases s.inventory.find? (fun q => q.code == code) with
    | none => rfl
    | some q => by_cases hq : q.category = cat <;> simp [hq]
  · intro t category now
    cases hp : process_inventory_excel t category now with
    | error e =>
      simp only [upload_file, hp]
      exact ⟨trivial, fun code p h => by simp [get_stock, h]⟩
    | ok processed =>
      simp only [upload_file, hp, Bool.false_eq_true, if_false]
      by_cases h1 : s.inventory = []
      · rw [if_pos h1]
        refine ⟨rfl, fun code p h => ?_⟩
        rw [h1] at h
        simp at h
      · rw [if_neg h1]
        by_cases h2 : processed.filter
            (fun p => !((s.inventory.map (·.code)).contains p.code)) = []
        · rw [if_pos h2]
          exact ⟨rfl, fun code p h => by simp [get_stock, h]⟩
        · rw [if_neg h2]
          refine ⟨rfl, fun code p h => ?_⟩
          simp only [get_stock, List.find?_append, h]
          rfl
  · intro code name category price stock re now hsucc
    unfold register_product at hsucc ⊢
    split_ifs at hsucc ⊢ with hh1 hh2 hh3
    · refine ⟨by simp [add_transaction], fun c p h => ?_⟩
      simp only [add_transaction, get_stock, List.find?_append, h]
      rfl
    · refine ⟨by simp [add_transaction], fun c p h => ?_⟩
      simp only [add_transaction, get_stock, List.find?_append, h]
      rfl

/-- Witness for C2 on a one-product table: a 판매 of 2 and a 직접조정 to 3
each append exactly their one record with matching before/after. -/
theorem claim_C2_witness :
    ((update_stock ⟨[⟨"P1", "A", "01", 1000, 5, 7, 0⟩], []⟩
        "P1" (-2) "판매" 3).1.transactions
      = [] ++ [{ transType := "판매", code := "P1", name := "A",
                 qty := |(-2 : ℚ)|, before := 5, after := max 0 (5 + (-2)) }]
     ∧ get_stock ⟨[⟨"P1", "A", "01", 1000, 5, 7, 0⟩], []⟩ "P1" = some 5
     ∧ get_stock (update_stock ⟨[⟨"P1", "A", "01", 1000, 5, 7, 0⟩], []⟩
        "P1" (-2) "판매" 3).1 "P1" = some (max 0 (5 + (-2))))
    ∧ ((set_quantity_direct ⟨[⟨"P1", "A", "01", 1000, 5, 7, 0⟩], []⟩
        "P1" 3 1).1.transactions
      = [] ++ [{ transType := "직접조정", code := "P1", name := "A",
                 qty := |(3 : ℚ) - 5|, before := 5, after := 3 }]
     ∧ get_stock ⟨[⟨"P1", "A", "01", 1000, 5, 7, 0⟩], []⟩ "P1" = some 5
     ∧ get_stock (set_quantity_direct ⟨[⟨"P1", "A", "01", 1000, 5, 7, 0⟩], []⟩
        "P1" 3 1).1 "P1" = some 3) :=
  ⟨(claim_C2 ⟨[⟨"P1", "A", "01", 1000, 5, 7, 0⟩], []⟩).1 "P1" (-2) "판매" 3
      ⟨"P1", "A", "01", 1000, 5, 7, 0⟩ rfl,
   (claim_C2 ⟨[⟨"P1", "A", "01", 1000, 5, 7, 0⟩], []⟩).2.1 "P1" 3 1
      ⟨"P1", "A", "01", 1000, 5, 7, 0⟩ rfl⟩

/-- C4, counterexample: registering a product with initial quantity 5 and no
recommended quantity stores recommended = max(int(5 * 1.5), 5) = 7, while the
claim's formula max(5 * 1.5, 5) gives 15/2 = 7.5 — Python's int() truncates
before the max, so the claim as stated fails at on-hand 5. -/
theorem claim_C4_counterexample :
    ((register_product ⟨[], []⟩ "P1" "RiceBall" "02" 1200 5 0
        0).1.inventory.map (·.recommended)) = [7]
    ∧ recommended_spec 5 = 15 / 2
    ∧ (7 : ℚ) ≠ 15 / 2 := by
  refine ⟨?_, by norm_num [recommended_spec, max_def], by norm_num⟩
  norm_num [register_product, pyInt, max_def, add_transaction]
  rw [if_neg (show ¬("P1" = "" ∨ "RiceBall" = "") by decide)]
  simp

/-- C4 (amended): when a product is registered manually with recommended 0,
or arrives through import with recommended absent or 0, its recommended
quantity becomes `max(floor(on-hand * 1.5), 5)` (Python `int()` truncation
before the max); in particular initial quantity 10 yields 15 and initial
quantity 2 yields 5. -/
theorem claim_C4 :
    (∀ (s : SysState) (code name category : String) (price stock : ℚ)
        (now : Nat),
      (register_product s code name category price stock 0 now).2 = true →
        (register_product s code name category price stock 0 now).1.inventory
          = s.inventory ++
            [{ code := code, name := name.trim, category := category,
               price := price, stock := stock,
               recommended := recommended_amended stock, regTime := now }])
    ∧ (∀ (t : RawTable) (category : String) (now : Nat) (pr : Product),
        pr ∈ normalize_rows t category now →
          pr.recommended = recommended_amended pr.stock
          ∨ (t.hasRecommended = true ∧ ∃ r ∈ t.rows,
              r.recommended ≠ 0 ∧ pr.recommended = r.recommended))
    ∧ recommended_amended 10 = 15 ∧ recommended_amended 2 = 5 := by
  refine ⟨?_, ?_, ?_, ?_⟩
  · intro s code name category price stock now hsucc
    unfold register_product at hsucc ⊢
    split_ifs at hsucc ⊢ with hh1 hh2 hh3
    · exact absurd hh3 (by norm_num)
    · simp [add_transaction, recommended_amended]
  · intro t category now pr hpr
    rcases List.mem_map.mp hpr with ⟨r, hr, rfl⟩
    by_cases hR : t.hasRecommended = true
    · by_cases hz : r.recommended = 0
      · left
        simp [hR, hz, recommended_amended]
      · right
        exact ⟨hR, r, hr, hz, by simp [hR, hz]⟩
    · left
      simp only [Bool.not_eq_true] at hR
      simp [hR, recommended_amended]
  · norm_num [recommended_amended, pyInt, max_def]
  · norm_num [recommended_amended, pyInt, max_def]

/-- Witness for C4: registering code P1 with stock 10 and recommended 0 on an
empty table appends the row with recommended = recommended_amended 10 (= 15),
and a normalized import row with stock 4 and no recommended column gets
recommended = recommended_amended 4. -/
theorem claim_C4_witness :
    ((register_product ⟨[], []⟩ "P1" "RiceBall" "02" 1200 10 0 0).1.inventory
      = [] ++ [(⟨"P1", "RiceBall".trim, "02", 1200, 10,
                 recommended_amended 10, 0⟩ : Product)])
    ∧ ((⟨"P2", "Gum", "55", 500, 4, recommended_amended 4, 0⟩ :
          Product).recommended
        = recommended_amended (⟨"P2", "Gum", "55", 500, 4,
            recommended_amended 4, 0⟩ : Product).stock
       ∨ ((⟨true, true, true, true, false, false,
            [⟨"P2", "Gum", 500, 4, 0, 0⟩]⟩ : RawTable).hasRecommended = true
          ∧ ∃ r ∈ (⟨true, true, true, true, false, false,
              [⟨"P2", "Gum", 500, 4, 0, 0⟩]⟩ : RawTable).rows,
              r.recommended ≠ 0
              ∧ (⟨"P2", "Gum", "55", 500, 4, recommended_amended 4, 0⟩ :
                  Product).recommended = r.recommended)) := by
  constructor
  · exact claim_C4.1 ⟨[], []⟩ "P1" "RiceBall" "02" 1200 10 0 rfl
  · refine claim_C4.2.1 ⟨true, true, true, true, false, false,
      [⟨"P2", "Gum", 500, 4, 0, 0⟩]⟩ "55" 0 _ ?_
    simp [normalize_rows, recommended_amended]

/-- C5, counterexample: a 직접조정 from stock 5 down to 3 records quantity 2
(the absolute value), not the signed delta 3 - 5 = -2; the recorded quantity
is never negative, so the claim's "delta recorded is newQuantity - before and
may be negative" is false. -/
theorem claim_C5_counterexample :
    ((set_quantity_direct ⟨[⟨"P1", "A", "01", 1000, 5, 7, 0⟩], []⟩
        "P1" 3 1).1.transactions.map (·.qty)) = [2]
    ∧ (3 : ℚ) - 5 = -2
    ∧ (2 : ℚ) ≠ -2 := by
  refine ⟨?_, by norm_num, by norm_num⟩
  simp [set_quantity_direct, add_transaction, List.find?]
  norm_num [abs]

/-- C5 (amended): a 직접조정 on an existing product appends exactly one
record whose stored quantity is the ABSOLUTE value |newQuantity - before|
(hence never negative); the signed delta newQuantity - before is recoverable
from the record as after - before. -/
theorem claim_C5 (s : SysState) (code : String) (newStock : ℚ) (now : Nat)
    (p : Product)
    (h : s.inventory.find? (fun q => q.code == code) = some p) :
    ∃ r : Transaction,
      (set_quantity_direct s code newStock now).1.transactions
        = s.transactions ++ [r]
      ∧ r.qty = |newStock - p.stock|
      ∧ 0 ≤ r.qty
      ∧ r.after - r.before = newStock - p.stock := by
  refine ⟨{ transType := "직접조정", code := code, name := p.name,
            qty := |newStock - p.stock|, before := p.stock,
            after := newStock }, ?_, rfl, abs_nonneg _, rfl⟩
  simp [set_quantity_direct, h, add_transaction]

/-- Witness for C5: the 직접조정 from 5 to 3 of the counterexample state. -/
theorem claim_C5_witness :
    ∃ r : Transaction,
      (set_quantity_direct ⟨[⟨"P1", "A", "01", 1000, 5, 7, 0⟩], []⟩
          "P1" 3 1).1.transactions = [] ++ [r]
      ∧ r.qty = |(3 : ℚ) - 5|
      ∧ 0 ≤ r.qty
      ∧ r.after - r.before = (3 : ℚ) - 5 :=
  claim_C5 ⟨[⟨"P1", "A", "01", 1000, 5, 7, 0⟩], []⟩ "P1" 3 1
    ⟨"P1", "A", "01", 1000, 5, 7, 0⟩ rfl

/-- C8, counterexample: 일괄 적용 with multiplier 1.5 on a product with
on-hand 5 stores recommended = max(int(5 * 1.5), 5) = 7, while the claim's
formula max(5 * 1.5, 5) gives 15/2 = 7.5 — int() truncation again. -/
theorem claim_C8_counterexample :
    ((bulk_set_recommended ⟨[⟨"P1", "A", "01", 1000, 5, 9, 0⟩], []⟩
        "01" 1.5).inventory.map (·.recommended)) = [7]
    ∧ bulk_recommended_spec 5 1.5 = 15 / 2
    ∧ (7 : ℚ) ≠ 15 / 2 := by
  refine ⟨?_, by norm_num [bulk_recommended_spec, max_def], by norm_num⟩
  simp [bulk_set_recommended]
  norm_num [pyInt, max_def]

/-- C8 (amended): 일괄 적용 leaves the transaction log untouched and maps the
table row-for-row: a product in the selected category keeps its code, name,
category, price, stock and timestamp and gets recommended =
max(int(stock * multiplier), 5) (truncating); any other product is unchanged.
With multiplier 2 the examples 4 and 10 give 8 and 20. -/
theorem claim_C8 (s : SysState) (cat : String) (m : ℚ) :
    (bulk_set_recommended s cat m).transactions = s.transactions
    ∧ List.Forall₂ (fun p p' : Product =>
        p'.code = p.code ∧ p'.name = p.name ∧ p'.category = p.category
        ∧ p'.price = p.price ∧ p'.stock = p.stock ∧ p'.regTime = p.regTime
        ∧ p'.recommended = (if p.category = cat then
            bulk_recommended_amended p.stock m else p.recommended))
      s.inventory (bulk_set_recommended s cat m).inventory
    ∧ bulk_recommended_amended 4 2 = 8
    ∧ bulk_recommended_amended 10 2 = 20 := by
  refine ⟨rfl, ?_, ?_, ?_⟩
  · rw [bulk_set_recommended]
    rw [List.forall₂_map_right_iff, List.forall₂_same]
    intro p _
    by_cases hc : p.category = cat <;>
      simp [hc, bulk_recommended_amended]
  · norm_num [bulk_recommended_amended, pyInt, max_def]
  · norm_num [bulk_recommended_amended, pyInt, max_def]

/-- C10: every record appended by `update_stock` stores the absolute value of
the requested delta, with before/after the clamped stock values; for a 판매
of magnitude q against stock before < q, the record shows quantity q,
after 0 — and quantity differs from before - after, i.e. the stored quantity
is the requested, not the realized, change. -/
theorem claim_C10 (s : SysState) (code : String) (now : Nat) (p : Product)
    (h : s.inventory.find? (fun q => q.code == code) = some p) :
    (∀ (change : ℚ) (ttype : String), ∃ r : Transaction,
      (update_stock s code change ttype now).1.transactions
        = s.transactions ++ [r]
      ∧ r.qty = |change| ∧ r.before = p.stock
      ∧ r.after = max 0 (p.stock + change))
    ∧ (∀ q : ℚ, 0 ≤ p.stock → p.stock < q →
      ∃ r : Transaction,
        (adjust_stock s code "판매" q now).1.transactions
          = s.transactions ++ [r]
        ∧ r.qty = q ∧ r.after = 0 ∧ r.before = p.stock
        ∧ r.qty ≠ r.before - r.after) := by
  constructor
  · intro change ttype
    refine ⟨{ transType := ttype, code := code, name := p.name,
              qty := |change|, before := p.stock,
              after := max 0 (p.stock + change) }, ?_, rfl, rfl, rfl⟩
    simp [update_stock, h, add_transaction]
  · intro q hp0 hpq
    have hq0 : (0 : ℚ) ≤ q := le_of_lt (lt_of_le_of_lt hp0 hpq)
    have habs : |(-q : ℚ)| = q := by rw [abs_neg, abs_of_nonneg hq0]
    have hmax : max 0 (p.stock + -q) = 0 :=
      max_eq_left (by linarith)
    refine ⟨{ transType := "판매", code := code, name := p.name,
              qty := |(-q : ℚ)|, before := p.stock,
              after := max 0 (p.stock + -q) }, ?_, habs, hmax, rfl, ?_⟩
    · simp [adjust_stock, update_stock, h, add_transaction]
    · rw [habs, hmax, sub_zero]
      exact ne_of_gt hpq

/-- Witness for C10: selling 9 from stock 5 records quantity 9, after 0. -/
theorem claim_C10_witness :
    (∀ (change : ℚ) (ttype : String), ∃ r : Transaction,
      (update_stock ⟨[⟨"P1", "A", "01", 1000, 5, 7, 0⟩], []⟩
          "P1" change ttype 2).1.transactions = [] ++ [r]
      ∧ r.qty = |change| ∧ r.before = 5 ∧ r.after = max 0 (5 + change))
    ∧ (∃ r : Transaction,
        (adjust_stock ⟨[⟨"P1", "A", "01", 1000, 5, 7, 0⟩], []⟩
            "P1" "판매" 9 2).1.transactions = [] ++ [r]
        ∧ r.qty = 9 ∧ r.after = 0 ∧ r.before = 5
        ∧ r.qty ≠ r.before - r.after) := by
  have h := claim_C10 ⟨[⟨"P1", "A", "01", 1000, 5, 7, 0⟩], []⟩ "P1" 2
    ⟨"P1", "A", "01", 1000, 5, 7, 0⟩ rfl
  exact ⟨h.1, h.2 9 (by norm_num) (by norm_num)⟩

/-- C6: a merge-mode upload (replace unchecked) over a non-empty table
succeeds with no error, appends exactly the processed rows whose codes are
new, leaves the existing rows (and the transaction log) unchanged, and for a
two-row file with one new and one existing code grows the table by exactly
one row. -/
theorem claim_C6 (s : SysState) (t : RawTable) (category : String) (now : Nat)
    (processed : List Product)
    (hne : s.inventory ≠ [])
    (hok : process_inventory_excel t category now = .ok processed) :
    (upload_file s t category false now).2 = none
    ∧ (upload_file s t category false now).1.inventory
        = s.inventory ++ processed.filter
            (fun p => !((s.inventory.map (·.code)).contains p.code))
    ∧ (upload_file s t category false now).1.transactions = s.transactions
    ∧ ∀ p1 p2 : Product, processed = [p1, p2] →
        ((s.inventory.map (·.code)).contains p1.code) = false →
        ((s.inventory.map (·.code)).contains p2.code) = true →
        (upload_file s t category false now).1.inventory.length
          = s.inventory.length + 1 := by
  by_cases hnd : processed.filter
      (fun p => !((s.inventory.map (·.code)).contains p.code)) = []
  · have hup : upload_file s t category false now = (s, none) := by
      simp only [upload_file, hok, Bool.false_eq_true, if_false, if_neg hne]
      rw [if_pos hnd]
    refine ⟨by rw [hup], by rw [hup, hnd, List.append_nil], by rw [hup], ?_⟩
    intro p1 p2 hp hc1 hc2
    have hmem : p1 ∈ processed.filter
        (fun p => !((s.inventory.map (·.code)).contains p.code)) :=
      List.mem_filter.mpr ⟨by rw [hp]; simp, by rw [hc1]; rfl⟩
    rw [hnd] at hmem
    cases hmem
  · have hup : upload_file s t category false now
        = (⟨s.inventory ++ processed.filter
              (fun p => !((s.inventory.map (·.code)).contains p.code)),
            s.transactions⟩, none) := by
      simp only [upload_file, hok, Bool.false_eq_true, if_false, if_neg hne]
      rw [if_neg hnd]
    refine ⟨by rw [hup], by rw [hup], by rw [hup], ?_⟩
    intro p1 p2 hp hc1 hc2
    have e1 : (fun p : Product =>
        !((s.inventory.map (·.code)).contains p.code)) p1 = true := by
      show (!((s.inventory.map (·.code)).contains p1.code)) = true
      rw [hc1]
      rfl
    have e2 : ¬ (fun p : Product =>
        !((s.inventory.map (·.code)).contains p.code)) p2 = true := by
      show ¬ (!((s.inventory.map (·.code)).contains p2.code)) = true
      rw [hc2]
      simp
    have hfil : ([p1, p2] : List Product).filter
        (fun p => !((s.inventory.map (·.code)).contains p.code)) = [p1] := by
      rw [@List.filter_cons_of_pos Product
            (fun p : Product => !((s.inventory.map (·.code)).contains p.code))
            p1 [p2] e1,
          @List.filter_cons_of_neg Product
            (fun p : Product => !((s.inventory.map (·.code)).contains p.code))
            p2 [] e2,
          List.filter_nil]
    rw [hup]
    simp only [List.length_append, hp, hfil]
    rfl

/-- Witness for C6: merging a file holding new code P2 and existing code P1
into a one-product table appends only P2 and grows the table to length 2. -/
theorem claim_C6_witness :
    (upload_file ⟨[⟨"P1", "A", "01", 1000, 5, 7, 0⟩], []⟩
        ⟨true, true, true, true, false, true,
         [⟨"P2", "B", 2, 2, 0, 5⟩, ⟨"P1", "C", 3, 3, 0, 6⟩]⟩
        "01" false 0).2 = none
    ∧ (upload_file ⟨[⟨"P1", "A", "01", 1000, 5, 7, 0⟩], []⟩
        ⟨true, true, true, true, false, true,
         [⟨"P2", "B", 2, 2, 0, 5⟩, ⟨"P1", "C", 3, 3, 0, 6⟩]⟩
        "01" false 0).1.inventory
      = [⟨"P1", "A", "01", 1000, 5, 7, 0⟩]
        ++ ([⟨"P2", "B", "01", 2, 2, 5, 0⟩, ⟨"P1", "C", "01", 3, 3, 6, 0⟩] :
            List Product).filter
            (fun p => !((([⟨"P1", "A", "01", 1000, 5, 7, 0⟩] :
                List Product).map (·.code)).contains p.code))
    ∧ (upload_file ⟨[⟨"P1", "A", "01", 1000, 5, 7, 0⟩], []⟩
        ⟨true, true, true, true, false, true,
         [⟨"P2", "B", 2, 2, 0, 5⟩, ⟨"P1", "C", 3, 3, 0, 6⟩]⟩
        "01" false 0).1.transactions = []
    ∧ (upload_file ⟨[⟨"P1", "A", "01", 1000, 5, 7, 0⟩], []⟩
        ⟨true, true, true, true, false, true,
         [⟨"P2", "B", 2, 2, 0, 5⟩, ⟨"P1", "C", 3, 3, 0, 6⟩]⟩
        "01" false 0).1.inventory.length
      = ([⟨"P1", "A", "01", 1000, 5, 7, 0⟩] : List Product).length + 1 := by
  have h := claim_C6 ⟨[⟨"P1", "A", "01", 1000, 5, 7, 0⟩], []⟩
    ⟨true, true, true, true, false, true,
     [⟨"P2", "B", 2, 2, 0, 5⟩, ⟨"P1", "C", 3, 3, 0, 6⟩]⟩
    "01" 0 [⟨"P2", "B", "01", 2, 2, 5, 0⟩, ⟨"P1", "C", "01", 3, 3, 6, 0⟩]
    (by simp) rfl
  exact ⟨h.1, h.2.1, h.2.2.1,
    h.2.2.2 ⟨"P2", "B", "01", 2, 2, 5, 0⟩ ⟨"P1", "C", "01", 3, 3, 6, 0⟩
      rfl rfl rfl⟩

/-- C7: a processing error (empty sheet, missing 상품코드/상품명 column, or
nothing valid left after filtering) is surfaced to the caller and the upload
handler leaves the whole state — product table and transaction log —
untouched; a nonempty sheet missing a required column yields exactly the
missing-column error, and a nonempty sheet whose normalized rows all fail
validation yields exactly the no-valid-data error. -/
theorem claim_C7 (s : SysState) (t : RawTable) (category : String)
    (mode : Bool) (now : Nat) :
    (∀ e, process_inventory_excel t category now = .error e →
       upload_file s t category mode now = (s, some e))
    ∧ (t.rows ≠ [] → ¬(t.hasCode = true ∧ t.hasName = true) →
       process_inventory_excel t category now = .error "필수 컬럼이 없습니다")
    ∧ (t.rows ≠ [] → (t.hasCode = true ∧ t.hasName = true) →
       (normalize_rows t category now).filter valid_row = [] →
       process_inventory_excel t category now
         = .error "유효한 데이터가 없습니다.") := by
  refine ⟨?_, ?_, ?_⟩
  · intro e he
    simp [upload_file, he]
  · intro h1 h2
    simp [process_inventory_excel, h1, h2]
  · intro h1 h2 h3
    simp [process_inventory_excel, h1, h2, h3]

/-- Witness for C7: uploading a one-row sheet that lacks the 상품명 column
fails with the missing-column error and returns the state unchanged. -/
theorem claim_C7_witness :
    upload_file ⟨[⟨"P0", "N", "01", 1, 1, 1, 0⟩], []⟩
        ⟨true, false, false, false, false, false, [⟨"P1", "X", 0, 0, 0, 0⟩]⟩
        "01" false 0
      = (⟨[⟨"P0", "N", "01", 1, 1, 1, 0⟩], []⟩, some "필수 컬럼이 없습니다") := by
  have h := claim_C7 ⟨[⟨"P0", "N", "01", 1, 1, 1, 0⟩], []⟩
    ⟨true, false, false, false, false, false, [⟨"P1", "X", 0, 0, 0, 0⟩]⟩
    "01" false 0
  exact h.1 _ (h.2.1 (by simp) (by decide))

/-- C9, counterexample: merge-importing a file whose two rows carry the SAME
new code P1 appends both rows, so code P1 appears twice — uniqueness of the
product code is violated by one upload operation. -/
theorem claim_C9_counterexample :
    ¬ (((run_ops ⟨[], []⟩
        [.upload ⟨true, true, true, true, false, true,
          [⟨"P1", "A", 1, 1, 0, 5⟩, ⟨"P1", "B", 2, 2, 0, 5⟩]⟩
          "01" false 0]).inventory.map (·.code)).Nodup) := by
  decide

/-- C9 (amended): product codes stay pairwise distinct under any sequence of
manual registrations and uploads, PROVIDED every uploaded file's normalized,
filtered rows carry pairwise-distinct codes; registration rejects duplicates
and merge-import skips codes already present, but neither deduplicates
within one uploaded file. -/
theorem claim_C9 (s : SysState) (ops : List LedgerOp)
    (hs : (s.inventory.map (·.code)).Nodup)
    (hops : ∀ op ∈ ops, op_import_nodup op) :
    ((run_ops s ops).inventory.map (·.code)).Nodup := by
  have main : ∀ (l : List LedgerOp) (s' : SysState),
      (s'.inventory.map (·.code)).Nodup →
      (∀ op ∈ l, op_import_nodup op) →
      ((run_ops s' l).inventory.map (·.code)).Nodup := by
    intro l
    induction l with
    | nil => exact fun s' h _ => h
    | cons op rest ih =>
      intro s' h hl
      rw [run_ops, List.foldl_cons]
      have hstep : (((run_op s' op).inventory.map (·.code)).Nodup) := by
        cases op with
        | register c n cat pr stq re now =>
          exact nodup_register s' c n cat pr stq re now h
        | upload t cat mode now =>
          exact nodup_upload s' t cat mode now h
            (hl (LedgerOp.upload t cat mode now) (List.mem_cons_self _ _))
      exact ih _ hstep (fun o ho => hl o (List.mem_cons_of_mem _ ho))
  exact main ops s hs hops

/-- Witness for C9: registering P1 and then merge-importing a duplicate-free
file keeps the code column duplicate-free. -/
theorem claim_C9_witness :
    ((run_ops ⟨[], []⟩
      [.register "P1" "A" "01" 1 1 5 0,
       .upload ⟨true, true, true, true, false, true, [⟨"P2", "B", 1, 1, 0, 5⟩]⟩
         "01" false 1]).inventory.map (·.code)).Nodup := by
  refine claim_C9 ⟨[], []⟩ _ (by simp) ?_
  intro op hop
  simp only [List.mem_cons, List.mem_singleton, List.not_mem_nil, or_false] at hop
  rcases hop with rfl | rfl
  · simp only [op_import_nodup]
  · simp only [op_import_nodup]
    decide
